import Mathlib

/-!
Verification development for the `metalsmith-downloader` repository.

The source (`src/index.js`) is a Metalsmith plugin that downloads named
remote resources to a destination directory, optionally through a shared
cache directory, with an incremental-skip flag.  The development below is a
shallow embedding of that JavaScript source:

* The filesystem is a finite map from path to file contents (`FS`).
* A single download attempt's external behaviour (mkdir outcome, HTTP
  response, stream events) is an explicit `DlScenario` oracle; `downloadFile`
  is the embedding of the `downloadFile` function of the source, consuming
  the oracle deterministically.
* Promise chains become sequential state passing; `Promise.all` is
  determinised to processing the resource list in key order, and its result
  is the first rejection in that order (`firstError`).
* Observable side effects (stat, network request, chmod, copy, error
  logging, deletion of an entry from the Metalsmith `files` object) are
  recorded in an operation trace (`Op`).

Two source variants live in the repository: `src/index.js` (cache +
incremental; its `fetchNonCached` reads the identifier `incremental`, which
is bound only inside `downloader`, so at `fetchNonCached`'s top-level scope
the identifier is unbound) and `src/unnamed/part_000` (incremental only,
with `incremental` correctly in scope via closure).  Both are embedded.

The retry scheduler and the bounded-concurrency queue described by the spec
(§4.4, §4.5) have no code under `src/`; they are modelled from the spec at
the end of the definitions section.
-/

deriving instance DecidableEq for Except

namespace MetalsmithDownloader

/-- Filesystem model: association list from path to file contents. -/
abbrev FS := List (String × String)

/-- Lookup of a path in the filesystem. -/
def fsGet : FS → String → Option String
  | [], _ => none
  | (q, c) :: rest, p => if q = p then some c else fsGet rest p

/-- Remove a path from the filesystem (models `fs.unlink`). -/
def fsErase : FS → String → FS
  | [], _ => []
  | (q, c) :: rest, p => if q = p then fsErase rest p else (q, c) :: fsErase rest p

/-- Write a file, overwriting any previous contents at the path. -/
def fsSet (fs : FS) (p : String) (c : String) : FS :=
  (p, c) :: fsErase fs p

/-- Embedding of `path.resolve(dir, name)` for an absolute `dir` and a
relative `name`, which is how the source always calls it. -/
def pathResolve (dir name : String) : String := dir ++ "/" ++ name

/-- Errors a run can observe.  The constructors keep the distinct origins of
the source's rejection values apart: HTTP status check, request error,
stream write error, `fs.mkdirs` error, `fs.chmod` error, `fs.copy` error,
and the JavaScript `ReferenceError` raised when an unbound identifier is
read. -/
inductive JsError where
  | invalidResponseCode (code : Nat)
  | netError (msg : String)
  | writeError (msg : String)
  | mkdirError (msg : String)
  | chmodError (path : String)
  | copyError (src : String)
  | referenceError (name : String)
  deriving DecidableEq, Repr

/-- Outcome of streaming the body of a 2xx response: either the full
contents arrive and the output stream closes cleanly, or the transfer fails
mid-stream (a local write error when `isWriteError`, otherwise a network
error during transfer), having written `partContent` so far; `unlinkFails`
says whether the subsequent `fs.unlink` cleanup itself fails. -/
inductive BodyOutcome where
  | ok (content : String)
  | failMidStream (isWriteError : Bool) (msg : String) (partContent : String) (unlinkFails : Bool)
  deriving DecidableEq, Repr

/-- Network behaviour of one GET request: either the request errors before
any response arrives, or a response with the given status and body outcome. -/
inductive NetOutcome where
  | errorBeforeResponse (msg : String)
  | response (status : Nat) (body : BodyOutcome)
  deriving DecidableEq, Repr

/-- Oracle for one download attempt: whether `fs.mkdirs` fails, and the
network behaviour of the GET request. -/
structure DlScenario where
  mkdirErr : Option String
  net : NetOutcome
  deriving DecidableEq, Repr

/-- Observable operations, recorded in traces. -/
inductive Op where
  | statOp (path : String)
  | download (path : String) (url : Option String)
  | chmodOp (path : String) (mode : Nat)
  | copyOp (src : String) (dst : String)
  | logErr (e : JsError)
  | deleteFromFiles (name : String)
  deriving DecidableEq, Repr

/-- Result of the embedded `downloadFile`: the settled promise value, the
filesystem afterwards, whether `req.abort()` was called, whether the
`fs.unlink` cleanup was attempted, and the operations performed (the
network request appears in `ops` only if `fs.mkdirs` succeeded, since the
source creates the request inside the `mkdirs` callback). -/
structure DlResult where
  res : Except JsError Unit
  fs : FS
  aborted : Bool
  unlinkAttempted : Bool
  ops : List Op
  deriving Repr

/-- Embedding of `downloadFile(filename, url)` from `src/index.js`:
make the directories, issue the GET, check the status code, stream the body
to `filename`; on a mid-stream failure abort the request, close the stream,
delete the partial file (a deletion failure is only logged), and reject
with the original error. -/
def downloadFile (filename : String) (url : Option String) (sc : DlScenario) (fs : FS) :
    DlResult :=
  match sc.mkdirErr with
  | some e => ⟨.error (.mkdirError e), fs, false, false, []⟩
  | none =>
    match sc.net with
    | .errorBeforeResponse msg =>
      ⟨.error (.netError msg), fs, true, false, [Op.download filename url]⟩
    | .response status body =>
      if status < 200 ∨ 300 ≤ status then
        ⟨.error (.invalidResponseCode status), fs, true, false, [Op.download filename url]⟩
      else
        match body with
        | .ok content =>
          ⟨.ok (), fsSet fs filename content, false, false, [Op.download filename url]⟩
        | .failMidStream isWriteError msg partContent unlinkFails =>
          let e := if isWriteError then JsError.writeError msg else JsError.netError msg
          let fsPart := fsSet fs filename partContent
          if unlinkFails then
            ⟨.error e, fsPart, true, true, [Op.download filename url]⟩
          else
            ⟨.error e, fsErase fsPart filename, true, true, [Op.download filename url]⟩

/-- Embedding of `checkFileExists`: resolves `false` on any stat error
(here: the path is absent), `true` when the path holds a file. -/
def checkFileExists (filename : String) (fs : FS) : Bool :=
  (fsGet fs filename).isSome

/-- Embedding of `chmodFile`: the model tracks no permission bits, so chmod
succeeds exactly when the target path holds a file and fails with an
ENOENT-style error otherwise (the case the claims exercise). -/
def chmodFile (filename : String) (fs : FS) : Except JsError Unit :=
  if checkFileExists filename fs then .ok () else .error (.chmodError filename)

/-- Embedding of `copyFile(src, dst)`: copies the contents when the source
exists, fails when it does not. -/
def copyFile (src dst : String) (fs : FS) : Except JsError Unit × FS :=
  match fsGet fs src with
  | some c => (.ok (), fsSet fs dst c)
  | none => (.error (.copyError src), fs)

/-- One entry of the Metalsmith `files` mapping: `contentsUrl` and `mode`
as they appear on the file object (either may be absent). -/
structure FileEntry where
  contentsUrl : Option String
  mode : Option Nat
  deriving DecidableEq, Repr

/-- JavaScript truthiness of `file.contentsUrl` (absent or empty string is
falsy). -/
def truthyUrlEntry (fe : FileEntry) : Bool :=
  match fe.contentsUrl with
  | some u => u != ""
  | none => false

/-- Truthiness of `file && file.contentsUrl` where the entry itself may be
a falsy value. -/
def truthyUrl : Option FileEntry → Bool
  | some fe => truthyUrlEntry fe
  | none => false

/-- JavaScript truthiness of `file.mode` (absent or zero is falsy). -/
def truthyMode (fe : FileEntry) : Bool :=
  match fe.mode with
  | some m => m != 0
  | none => false

/-- Result of one per-resource fetch promise: settled value, filesystem
afterwards, and the trace of observable operations. -/
structure FetchOut where
  res : Except JsError Unit
  fs : FS
  trace : List Op
  deriving Repr

/-- The `.then(chmod-if-mode).then(debug).catch(log)` tail that both fetch
functions attach to `downloadFile`: on download success, if `file.mode` is
truthy, `chmodFile(filename, file.mode)` is called on the UNRESOLVED name
`filename` (exactly as in the source); any error of the download or the
chmod is caught and logged, so this chain always resolves. -/
def afterDownload (file : FileEntry) (filename : String) (dl : DlResult) :
    List Op × FS :=
  match dl.res with
  | .ok _ =>
    if truthyMode file then
      match chmodFile filename dl.fs with
      | .ok _ => ([Op.chmodOp filename (file.mode.getD 0)], dl.fs)
      | .error e => ([Op.chmodOp filename (file.mode.getD 0), Op.logErr e], dl.fs)
    else ([], dl.fs)
  | .error e => ([Op.logErr e], dl.fs)

/-- Embedding of `fetchCached(files, filename, destDir, cacheDir)`: stat
`cacheDir/filename`; on a cache hit skip the download, otherwise download
into the cache path and run the caught chmod tail; in either case copy the
cache path to `destDir/filename` unconditionally.  Only the copy step can
reject. -/
def fetchCached (file : FileEntry) (filename destDir cacheDir : String)
    (sc : DlScenario) (fs : FS) : FetchOut :=
  let filepath := pathResolve cacheDir filename
  let destpath := pathResolve destDir filename
  if checkFileExists filepath fs then
    let cp := copyFile filepath destpath fs
    ⟨cp.1, cp.2, [Op.statOp filepath, Op.copyOp filepath destpath]⟩
  else
    let dl := downloadFile filepath file.contentsUrl sc fs
    let tail := afterDownload file filename dl
    let cp := copyFile filepath destpath tail.2
    ⟨cp.1, cp.2,
      Op.statOp filepath :: (dl.ops ++ tail.1 ++ [Op.copyOp filepath destpath])⟩

/-- In `src/index.js`, `fetchNonCached` reads the identifier `incremental`;
the only binding of that name is the `var incremental` local to
`downloader`, so at `fetchNonCached`'s scope the lookup fails: there is no
binding, embedded as `none`.  Reading it raises a `ReferenceError`. -/
def indexJsGlobalIncremental : Option Bool := none

/-- Embedding of `fetchNonCached(files, filename, destDir)`: stat
`destDir/filename`, evaluate `incremental && exists` (reading
`incremental` from the scope described by `globalIncremental`; an unbound
read rejects the promise with a `ReferenceError`), skip when incremental
and present, otherwise download into the destination path and run the
caught chmod tail.  With a bound `incremental` this function always
resolves, because the catch swallows every download/chmod error. -/
def fetchNonCached (file : FileEntry) (filename destDir : String)
    (globalIncremental : Option Bool) (sc : DlScenario) (fs : FS) : FetchOut :=
  let filepath := pathResolve destDir filename
  match globalIncremental with
  | none => ⟨.error (.referenceError "incremental"), fs, [Op.statOp filepath]⟩
  | some inc =>
    if inc && checkFileExists filepath fs then
      ⟨.ok (), fs, [Op.statOp filepath]⟩
    else
      let dl := downloadFile filepath file.contentsUrl sc fs
      let tail := afterDownload file filename dl
      ⟨.ok (), tail.2, Op.statOp filepath :: (dl.ops ++ tail.1)⟩

/-- Options object of the plugin: `incremental` and `cache`. -/
structure Options where
  incremental : Bool
  cache : Option String
  deriving Repr

/-- Outcome of one plugin run: the single value passed to the completion
callback `done` (`.ok ()` for `done()`, `.error e` for `done(err)` — the
promise settles once, so the model returns exactly one result), the
Metalsmith `files` mapping after the run, the filesystem, and the full
trace of operations tagged with the resource name that performed each. -/
structure RunOutcome where
  result : Except JsError Unit
  filesAfter : List (String × Option FileEntry)
  fs : FS
  trace : List (String × Op)
  deriving Repr

/-- `Promise.all` determinised: the run's result is the first rejection in
resource order, success when every per-resource promise resolved. -/
def firstError : List (Except JsError Unit) → Except JsError Unit
  | [] => .ok ()
  | .ok _ :: rest => firstError rest
  | .error e :: _ => .error e

/-- Run the per-resource fetches sequentially in key order (the
determinisation of `Promise.all` over the downloadable files), threading
the filesystem and tagging each trace entry with the resource name. -/
def runFetches (fetch1 : String → FileEntry → FS → FetchOut) :
    List (String × FileEntry) → FS →
    List (Except JsError Unit) × FS × List (String × Op)
  | [], fs => ([], fs, [])
  | (n, fe) :: rest, fs =>
    let out := fetch1 n fe fs
    let next := runFetches fetch1 rest out.fs
    (out.res :: next.1, next.2.1, out.trace.map (fun op => (n, op)) ++ next.2.2)

/-- The default value used when projecting an entry already known truthy. -/
def defaultEntry : FileEntry := ⟨none, none⟩

/-- The downloadable part of the `files` mapping: entries whose value and
`contentsUrl` are truthy, in key order (the `downloadableFiles` object of
the source). -/
def downloadables (files : List (String × Option FileEntry)) :
    List (String × FileEntry) :=
  (files.filter (fun p => truthyUrl p.2)).map (fun p => (p.1, p.2.getD defaultEntry))

/-- The per-resource fetch used by the `src/index.js` plugin: `fetchCached`
when a cache directory is configured, otherwise `fetchNonCached`, whose
read of `incremental` resolves in the module scope
(`indexJsGlobalIncremental`), not to the `downloader`-local binding
`opts.incremental`. -/
def fetchOf (opts : Options) (dest : String) (scen : String → DlScenario) :
    String → FileEntry → FS → FetchOut :=
  match opts.cache with
  | some cacheDir => fun n fe fs0 => fetchCached fe n dest cacheDir (scen n) fs0
  | none => fun n fe fs0 =>
      fetchNonCached fe n dest indexJsGlobalIncremental (scen n) fs0

/-- Embedding of the plugin function returned by `downloader(options)` in
`src/index.js`: partition `files` (deleting every downloadable entry from
the mapping before any fetch starts), then fetch each downloadable entry
with `fetchOf`, and call `done` with the first rejection, if any. -/
def downloaderRun (opts : Options) (files : List (String × Option FileEntry))
    (dest : String) (scen : String → DlScenario) (fs : FS) : RunOutcome :=
  let dls := downloadables files
  let remaining := files.filter (fun p => !truthyUrl p.2)
  let deleteTrace := dls.map (fun p => (p.1, Op.deleteFromFiles p.1))
  let outs := runFetches (fetchOf opts dest scen) dls fs
  ⟨firstError outs.1, remaining, outs.2.1, deleteTrace ++ outs.2.2⟩

/-- Embedding of the plugin function of `src/unnamed/part_000`: the same
partition, then the non-cached fetch logic inlined with `incremental`
correctly in scope (bound to the option value). -/
def part000Run (incremental : Bool) (files : List (String × Option FileEntry))
    (dest : String) (scen : String → DlScenario) (fs : FS) : RunOutcome :=
  let dls := downloadables files
  let remaining := files.filter (fun p => !truthyUrl p.2)
  let deleteTrace := dls.map (fun p => (p.1, Op.deleteFromFiles p.1))
  let fetch1 : String → FileEntry → FS → FetchOut := fun n fe fs0 =>
    fetchNonCached fe n dest (some incremental) (scen n) fs0
  let outs := runFetches fetch1 dls fs
  ⟨firstError outs.1, remaining, outs.2.1, deleteTrace ++ outs.2.2⟩

/-- Is an operation a network request? -/
def isDownloadOp : Op → Bool
  | .download _ _ => true
  | _ => false

/-- Is an operation a deletion of an entry from the `files` mapping? -/
def isDeleteOp : Op → Bool
  | .deleteFromFiles _ => true
  | _ => false

/-- Is an operation a chmod? -/
def isChmodOp : Op → Bool
  | .chmodOp _ _ => true
  | _ => false

/-- Number of network requests in a tagged run trace. -/
def countRequests (tr : List (String × Op)) : Nat :=
  tr.countP (fun x => isDownloadOp x.2)

/-- Number of network requests in a per-resource trace. -/
def countRequestsOps (tr : List Op) : Nat :=
  tr.countP isDownloadOp

/-- Terminal outcome of the spec's retry scheduler for one resource. -/
inductive RetryResult where
  | ok
  | retryLimitExceeded (name : String) (maxRetries : Nat)
  deriving DecidableEq, Repr

/-- Modelled from the spec: the Retry Scheduler of §4.4 is not part of the
code under `src/` (no `retries` option exists there), so it is modelled
from the spec's words.  A task for the resource is dequeued carrying its
attempt number; if `attempt > maxRetries` the task fails terminally with a
retry-limit error naming the resource and the configured maximum;
otherwise the attempt runs (`outcome attempt` tells whether it succeeds)
and on failure the task is re-submitted with `attempt + 1`.  `fuel` bounds
the recursion and is chosen large enough in `retryRun` never to run out. -/
def retryGo (name : String) (maxRetries : Nat) (outcome : Nat → Bool) :
    Nat → Nat → Nat × RetryResult
  | 0, _ => (0, .retryLimitExceeded name maxRetries)
  | fuel + 1, attempt =>
    if maxRetries < attempt then (0, .retryLimitExceeded name maxRetries)
    else if outcome attempt then (1, .ok)
    else
      let r := retryGo name maxRetries outcome fuel (attempt + 1)
      (r.1 + 1, r.2)

/-- Modelled from the spec: one resource processed by the Retry Scheduler
starting at attempt 0; returns the number of download attempts performed
and the terminal outcome. -/
def retryRun (name : String) (maxRetries : Nat) (outcome : Nat → Bool) :
    Nat × RetryResult :=
  retryGo name maxRetries outcome (maxRetries + 2) 0

/-- Modelled from the spec: state of the Concurrency Queue of §4.5 (which
is not part of the code under `src/`, where `Promise.all` runs every task
at once and no `concurrency` option exists).  Task identity is irrelevant
to the claims, so the state keeps the number of queued tasks, the number
in flight, and whether completion has been signalled. -/
structure QState where
  queued : Nat
  running : Nat
  completed : Bool
  deriving DecidableEq, Repr

/-- Modelled from the spec: transitions of the Concurrency Queue with bound
`K`.  Tasks may be enqueued during the run (retries); a queued task may
start only while fewer than `K` are in flight; a running task may finish;
completion is signalled only when the queue is empty and nothing is in
flight, and nothing happens after completion. -/
inductive QStep (K : Nat) : QState → QState → Prop where
  | enqueue (q r : Nat) : QStep K ⟨q, r, false⟩ ⟨q + 1, r, false⟩
  | start (q r : Nat) (hr : r < K) : QStep K ⟨q + 1, r, false⟩ ⟨q, r + 1, false⟩
  | finish (q r : Nat) : QStep K ⟨q, r + 1, false⟩ ⟨q, r, false⟩
  | complete : QStep K ⟨0, 0, false⟩ ⟨0, 0, true⟩

/-- Reachability in the queue's transition system. -/
inductive QReach (K : Nat) (init : QState) : QState → Prop where
  | refl : QReach K init init
  | step {s t : QState} : QReach K init s → QStep K s t → QReach K init t

/-- Scenario oracle where every request is answered 200 with body `DATA`. -/
def scenOk : String → DlScenario := fun _ => ⟨none, .response 200 (.ok "DATA")⟩

/-- Scenario oracle where every request is answered with HTTP 500. -/
def scen500 : String → DlScenario := fun _ => ⟨none, .response 500 (.ok "X")⟩

/-- A one-entry files mapping: `a.txt` with a source URL and no mode. -/
def filesA : List (String × Option FileEntry) := [("a.txt", some ⟨some "http://u", none⟩)]

/-- A one-entry files mapping: `b.txt` with a source URL and mode 0644. -/
def filesB : List (String × Option FileEntry) := [("b.txt", some ⟨some "http://u2", some 420⟩)]

/-- Two entries: one downloadable, one without a source URL. -/
def filesMixed : List (String × Option FileEntry) :=
  [("a.txt", some ⟨some "http://u", none⟩), ("keep.md", some ⟨none, none⟩)]

/-! ## Theorems -/

/-- Claim C2 (code bug): with `incremental=true` and no cache directory, the
spec promises that a first run downloads the resource and a second run
skips it (one request across both runs).  In `src/index.js` the identifier
`incremental` read by `fetchNonCached` is bound only inside `downloader`,
so every no-cache fetch rejects with a `ReferenceError` before any request
is issued: the run fails and performs zero requests.  The sibling variant
`src/unnamed/part_000`, where `incremental` is in scope, satisfies the
claim: two runs succeed with exactly one request in total and the second
run finds the destination file present. -/
theorem c2_incremental_scope_bug :
    (downloaderRun ⟨true, none⟩ filesA "/dest" scenOk []).result =
      .error (.referenceError "incremental") ∧
    countRequests (downloaderRun ⟨true, none⟩ filesA "/dest" scenOk []).trace = 0 ∧
    fsGet (downloaderRun ⟨true, none⟩ filesA "/dest" scenOk []).fs "/dest/a.txt" = none ∧
    (part000Run true filesA "/dest" scenOk []).result = .ok () ∧
    (part000Run true filesA "/dest" scenOk
        (part000Run true filesA "/dest" scenOk []).fs).result = .ok () ∧
    countRequests (part000Run true filesA "/dest" scenOk []).trace +
      countRequests (part000Run true filesA "/dest" scenOk
        (part000Run true filesA "/dest" scenOk []).fs).trace = 1 ∧
    fsGet (part000Run true filesA "/dest" scenOk
        (part000Run true filesA "/dest" scenOk []).fs).fs "/dest/a.txt" = some "DATA" := by
  decide

/-- Claim C3 (code bug): after `b.txt` (mode 0644) downloads successfully
into the cache, the only chmod performed targets the UNRESOLVED relative
name `b.txt`, not the resolved download path `/cache/b.txt`; that chmod
fails (no such file) and is merely logged, the run still reports success,
and the materialized destination file never receives the mode. -/
theorem c3_chmod_unresolved_name :
    (downloaderRun ⟨false, some "/cache"⟩ filesB "/dest" scenOk []).trace.filter
        (fun x => isChmodOp x.2) = [("b.txt", Op.chmodOp "b.txt" 420)] ∧
    ("b.txt", Op.logErr (.chmodError "b.txt")) ∈
      (downloaderRun ⟨false, some "/cache"⟩ filesB "/dest" scenOk []).trace ∧
    (downloaderRun ⟨false, some "/cache"⟩ filesB "/dest" scenOk []).result = .ok () ∧
    fsGet (downloaderRun ⟨false, some "/cache"⟩ filesB "/dest" scenOk []).fs
      "/dest/b.txt" = some "DATA" := by
  decide

/-- Claim C1, counterexample: in cache mode a resource whose fetch ends in
an unrecoverable HTTP-500 failure (the error is in the trace, merely
logged) yields a run result that is the later copy-step error, not the
fetch error and not success — the completion callback does not carry the
resource's fatal fetch error. -/
theorem c1_counterexample :
    ("a.txt", Op.logErr (.invalidResponseCode 500)) ∈
      (downloaderRun ⟨false, some "/cache"⟩ filesA "/dest" scen500 []).trace ∧
    (downloaderRun ⟨false, some "/cache"⟩ filesA "/dest" scen500 []).result =
      .error (.copyError "/cache/a.txt") ∧
    (downloaderRun ⟨false, some "/cache"⟩ filesA "/dest" scen500 []).result ≠
      .error (.invalidResponseCode 500) ∧
    (downloaderRun ⟨false, some "/cache"⟩ filesA "/dest" scen500 []).result ≠ .ok () := by
  decide

/-- Claim C4, counterexample: a download that fails mid-stream with a local
write error, where the cleanup `fs.unlink` itself fails, reports the
original error but leaves the truncated partial file `PAR` at the
destination path — so the path can hold a truncated file afterwards. -/
theorem c4_counterexample :
    (downloadFile "/dest/a.txt" (some "http://u")
        ⟨none, .response 200 (.failMidStream true "EIO" "PAR" true)⟩ []).res =
      .error (.writeError "EIO") ∧
    fsGet (downloadFile "/dest/a.txt" (some "http://u")
        ⟨none, .response 200 (.failMidStream true "EIO" "PAR" true)⟩ []).fs
      "/dest/a.txt" = some "PAR" := by
  decide

/-- The path written by `fsErase` is gone. -/
theorem fsGet_fsErase_self (fs : FS) (p : String) : fsGet (fsErase fs p) p = none := by
  induction fs with
  | nil => rfl
  | cons hd tl ih =>
    by_cases h : hd.1 = p
    · simpa [fsErase, h] using ih
    · simp [fsErase, h, fsGet, ih]

/-- Claim C4, amended: on a mid-stream failure (local write error or
network error during transfer) the request is aborted, the deletion of the
partial file is attempted, the ORIGINAL failure is reported regardless of
whether the deletion fails, and when the deletion succeeds the target path
holds no file afterwards. -/
theorem c4_midstream_cleanup (filename : String) (url : Option String)
    (status : Nat) (isW : Bool) (msg partContent : String) (uf : Bool) (fs : FS)
    (h1 : 200 ≤ status) (h2 : status < 300) :
    (downloadFile filename url
        ⟨none, .response status (.failMidStream isW msg partContent uf)⟩ fs).aborted = true ∧
    (downloadFile filename url
        ⟨none, .response status (.failMidStream isW msg partContent uf)⟩ fs).unlinkAttempted = true ∧
    (downloadFile filename url
        ⟨none, .response status (.failMidStream isW msg partContent uf)⟩ fs).res =
      .error (if isW then JsError.writeError msg else JsError.netError msg) ∧
    (uf = false → fsGet (downloadFile filename url
        ⟨none, .response status (.failMidStream isW msg partContent uf)⟩ fs).fs filename = none) := by
  have hcond : ¬(status < 200 ∨ 300 ≤ status) := by omega
  cases uf <;>
    simp [downloadFile, hcond, fsGet_fsErase_self]

/-- Witness for the amended C4 at a concrete mid-stream write failure with
a succeeding cleanup. -/
theorem c4_midstream_cleanup_witness :
    (downloadFile "/d/f" (some "u")
        ⟨none, .response 200 (.failMidStream true "EIO" "PAR" false)⟩ []).aborted = true ∧
    (downloadFile "/d/f" (some "u")
        ⟨none, .response 200 (.failMidStream true "EIO" "PAR" false)⟩ []).unlinkAttempted = true ∧
    (downloadFile "/d/f" (some "u")
        ⟨none, .response 200 (.failMidStream true "EIO" "PAR" false)⟩ []).res =
      .error (if true then JsError.writeError "EIO" else JsError.netError "EIO") ∧
    (false = false → fsGet (downloadFile "/d/f" (some "u")
        ⟨none, .response 200 (.failMidStream true "EIO" "PAR" false)⟩ []).fs "/d/f" = none) :=
  c4_midstream_cleanup "/d/f" (some "u") 200 true "EIO" "PAR" false []
    (by decide) (by decide)

/-- Claim C8: a response status outside [200,300) makes the attempt reject
with the invalid-response-code error, aborts the request, and leaves the
filesystem untouched — no file is created or left behind by the attempt
(the request itself was issued). -/
theorem c8_bad_status (filename : String) (url : Option String) (status : Nat)
    (body : BodyOutcome) (fs : FS) (h : status < 200 ∨ 300 ≤ status) :
    downloadFile filename url ⟨none, .response status body⟩ fs =
      ⟨.error (.invalidResponseCode status), fs, true, false, [Op.download filename url]⟩ := by
  simp [downloadFile, h]

/-- Witness for C8 at a concrete 500 response. -/
theorem c8_bad_status_witness :
    downloadFile "/dest/a.txt" (some "http://u") ⟨none, .response 500 (.ok "X")⟩ [] =
      ⟨.error (.invalidResponseCode 500), [], true, false,
        [Op.download "/dest/a.txt" (some "http://u")]⟩ :=
  c8_bad_status "/dest/a.txt" (some "http://u") 500 (.ok "X") [] (Or.inr (by omega))

/-- With every attempt failing, the retry scheduler performs exactly the
remaining number of attempts and ends with the retry-limit error. -/
theorem retryGo_allFail (name : String) (N : Nat) (outcome : Nat → Bool)
    (h : ∀ i, outcome i = false) :
    ∀ k a, a + k = N + 1 → retryGo name N outcome (k + 1) a = (k, .retryLimitExceeded name N) := by
  intro k
  induction k with
  | zero =>
    intro a ha
    have : N < a := by omega
    simp [retryGo, this]
  | succ k ih =>
    intro a ha
    have hle : ¬ N < a := by omega
    have hrec := ih (a + 1) (by omega)
    show (if N < a then ((0 : Nat), RetryResult.retryLimitExceeded name N)
        else if outcome a = true then (1, RetryResult.ok)
        else ((retryGo name N outcome (k + 1) (a + 1)).1 + 1,
              (retryGo name N outcome (k + 1) (a + 1)).2)) =
      (k + 1, RetryResult.retryLimitExceeded name N)
    rw [if_neg hle, h a, hrec]
    simp

/-- Claim C5 (spec-modelled): with `retries = N`, a resource whose every
attempt fails undergoes exactly `N + 1` download attempts and terminates
with a `RetryLimitExceeded` naming the resource and the configured
maximum. -/
theorem c5_retry_bound (name : String) (N : Nat) (outcome : Nat → Bool)
    (h : ∀ i, outcome i = false) :
    retryRun name N outcome = (N + 1, .retryLimitExceeded name N) := by
  have := retryGo_allFail name N outcome h (N + 1) 0 (by omega)
  simpa [retryRun] using this

/-- Witness for C5: three attempts with `retries = 2`. -/
theorem c5_retry_bound_witness :
    retryRun "b.txt" 2 (fun _ => false) = (3, .retryLimitExceeded "b.txt" 2) :=
  c5_retry_bound "b.txt" 2 (fun _ => false) (fun _ => rfl)

/-- Claim C9 (spec-modelled): in every state the queue can reach from an
initial batch with nothing in flight, at most `K` tasks are simultaneously
in flight, and if completion has been signalled then the queue is empty
and nothing is in flight. -/
theorem c9_queue_invariant (K q0 : Nat) (s : QState)
    (h : QReach K ⟨q0, 0, false⟩ s) :
    s.running ≤ K ∧ (s.completed = true → s.queued = 0 ∧ s.running = 0) := by
  induction h with
  | refl => simp
  | step hr hs ih =>
    cases hs with
    | enqueue q r => exact ⟨ih.1, by simp⟩
    | start q r hK => exact ⟨by simpa using Nat.succ_le_of_lt hK, by simp⟩
    | finish q r => exact ⟨by have := ih.1; simp_all; omega, by simp⟩
    | complete => exact ⟨by simp, fun _ => ⟨rfl, rfl⟩⟩

/-- Witness for C9: after one `start` step from a two-task batch with
`K = 1`, one task is in flight and the bound holds. -/
theorem c9_queue_invariant_witness :
    (QState.mk 1 1 false).running ≤ 1 ∧
    ((QState.mk 1 1 false).completed = true →
      (QState.mk 1 1 false).queued = 0 ∧ (QState.mk 1 1 false).running = 0) :=
  c9_queue_invariant 1 2 ⟨1, 1, false⟩
    (QReach.step QReach.refl (QStep.start 1 0 (by omega)))

/-- `copyFile` either resolves or rejects with a copy error naming its
source. -/
theorem copyFile_res (src dst : String) (fs : FS) :
    (copyFile src dst fs).1 = .ok () ∨
    (copyFile src dst fs).1 = .error (.copyError src) := by
  unfold copyFile
  cases fsGet fs src <;> simp

/-- When `fs.mkdirs` succeeds, the attempt issues exactly one request. -/
theorem downloadFile_ops (f : String) (u : Option String) (sc : DlScenario)
    (fs : FS) (h : sc.mkdirErr = none) :
    (downloadFile f u sc fs).ops = [Op.download f u] := by
  rcases sc with ⟨mk, net⟩
  simp only at h
  subst h
  cases net with
  | errorBeforeResponse msg => rfl
  | response status body =>
    by_cases hs : status < 200 ∨ 300 ≤ status
    · simp [downloadFile, hs]
    · cases body with
      | ok c => simp [downloadFile, hs]
      | failMidStream iw m pc uf => cases uf <;> simp [downloadFile, hs]

/-- The operations of a download attempt: none (mkdir failed) or exactly
the one request. -/
theorem downloadFile_ops_cases (f : String) (u : Option String)
    (sc : DlScenario) (fs : FS) :
    (downloadFile f u sc fs).ops = [] ∨
    (downloadFile f u sc fs).ops = [Op.download f u] := by
  rcases hmk : sc.mkdirErr with _ | e
  · exact Or.inr (downloadFile_ops f u sc fs hmk)
  · rcases sc with ⟨mk, net⟩
    simp only at hmk
    subst hmk
    exact Or.inl rfl

/-- The caught chmod tail performs no request and no deletion from the
files mapping. -/
theorem afterDownload_ops (fe : FileEntry) (n : String) (dl : DlResult) :
    ∀ op ∈ (afterDownload fe n dl).1,
      isDownloadOp op = false ∧ isDeleteOp op = false := by
  intro op hop
  rcases dl with ⟨res, dfs, ab, ul, ops⟩
  cases res with
  | error e =>
    simp [afterDownload] at hop
    subst hop
    exact ⟨rfl, rfl⟩
  | ok v =>
    by_cases ht : truthyMode fe
    · cases hc : chmodFile n dfs with
      | ok w =>
        simp [afterDownload, ht, hc] at hop
        subst hop
        exact ⟨rfl, rfl⟩
      | error e =>
        simp [afterDownload, ht, hc] at hop
        rcases hop with h | h <;> subst h <;> exact ⟨rfl, rfl⟩
    · simp [afterDownload, ht] at hop

/-- Claim C6: in cache mode, a cache hit performs no request, a cache miss
downloads into `cacheDir/name` (every request of the fetch targets the
cache path, and on a working mkdir the request is issued), the copy to
`destinationDir/name` appears in the trace in both cases, and a cache-mode
run is entirely independent of the `incremental` option. -/
theorem c6_cache_policy (fe : FileEntry) (filename destDir cacheDir : String)
    (sc : DlScenario) (fs : FS) (inc1 inc2 : Bool)
    (files : List (String × Option FileEntry)) (dest : String)
    (scen : String → DlScenario) (fs0 : FS) :
    (checkFileExists (pathResolve cacheDir filename) fs = true →
      countRequestsOps (fetchCached fe filename destDir cacheDir sc fs).trace = 0) ∧
    (checkFileExists (pathResolve cacheDir filename) fs = false →
      sc.mkdirErr = none →
      Op.download (pathResolve cacheDir filename) fe.contentsUrl ∈
        (fetchCached fe filename destDir cacheDir sc fs).trace) ∧
    (∀ p u, Op.download p u ∈ (fetchCached fe filename destDir cacheDir sc fs).trace →
      p = pathResolve cacheDir filename) ∧
    Op.copyOp (pathResolve cacheDir filename) (pathResolve destDir filename) ∈
      (fetchCached fe filename destDir cacheDir sc fs).trace ∧
    downloaderRun ⟨inc1, some cacheDir⟩ files dest scen fs0 =
      downloaderRun ⟨inc2, some cacheDir⟩ files dest scen fs0 := by
  refine ⟨?_, ?_, ?_, ?_, rfl⟩
  · intro hc
    simp [fetchCached, hc, countRequestsOps, isDownloadOp]
  · intro hc hmk
    simp [fetchCached, hc, downloadFile_ops _ _ _ _ hmk]
  · intro p u hp
    by_cases hc : checkFileExists (pathResolve cacheDir filename) fs
    · simp [fetchCached, hc] at hp
    · simp [fetchCached, hc] at hp
      rcases hp with h | h
      · rcases downloadFile_ops_cases (pathResolve cacheDir filename)
          fe.contentsUrl sc fs with ho | ho <;> rw [ho] at h
        · simp at h
        · simp at h
          exact h.1
      · have := (afterDownload_ops fe filename _ _ h).1
        simp [isDownloadOp] at this
  · by_cases hc : checkFileExists (pathResolve cacheDir filename) fs <;>
      simp [fetchCached, hc]

/-- Witness for C6 at a concrete cache hit: no request, and the copy to the
destination is performed. -/
theorem c6_cache_policy_witness :
    countRequestsOps (fetchCached ⟨some "http://u", none⟩ "a.txt" "/dest" "/cache"
      ⟨none, .response 200 (.ok "DATA")⟩ [("/cache/a.txt", "OLD")]).trace = 0 ∧
    Op.copyOp "/cache/a.txt" "/dest/a.txt" ∈
      (fetchCached ⟨some "http://u", none⟩ "a.txt" "/dest" "/cache"
        ⟨none, .response 200 (.ok "DATA")⟩ [("/cache/a.txt", "OLD")]).trace :=
  ⟨(c6_cache_policy ⟨some "http://u", none⟩ "a.txt" "/dest" "/cache"
      ⟨none, .response 200 (.ok "DATA")⟩ [("/cache/a.txt", "OLD")] false false
      [] "/dest" scenOk []).1 rfl,
   (c6_cache_policy ⟨some "http://u", none⟩ "a.txt" "/dest" "/cache"
      ⟨none, .response 200 (.ok "DATA")⟩ [("/cache/a.txt", "OLD")] false false
      [] "/dest" scenOk []).2.2.2.1⟩

/-- Claim C10: on a cache miss, whenever the download rejects, or the
download resolves and the subsequent chmod rejects, the error is caught and
logged inside the fetch step and the copy from the cache path to the
destination path is still attempted afterwards (the trace is exactly stat,
the attempt's request operations, the chmod operation when one was
performed, the logged error, then the copy); the fetch's own result is the
copy's result, so when the failure left no cache file the fetch rejects
with the copy error for the cache path instead of skipping the copy. -/
theorem c10_copy_after_failed_fetch (fe : FileEntry)
    (filename destDir cacheDir : String) (sc : DlScenario) (fs : FS) (e : JsError)
    (hmiss : checkFileExists (pathResolve cacheDir filename) fs = false)
    (hfail : (downloadFile (pathResolve cacheDir filename) fe.contentsUrl sc fs).res =
        .error e ∨
      ((downloadFile (pathResolve cacheDir filename) fe.contentsUrl sc fs).res = .ok () ∧
       truthyMode fe = true ∧
       chmodFile filename
         (downloadFile (pathResolve cacheDir filename) fe.contentsUrl sc fs).fs =
           .error e)) :
    (∃ pre, (fetchCached fe filename destDir cacheDir sc fs).trace =
      Op.statOp (pathResolve cacheDir filename) ::
        ((downloadFile (pathResolve cacheDir filename) fe.contentsUrl sc fs).ops ++
          pre ++ [Op.logErr e] ++
          [Op.copyOp (pathResolve cacheDir filename) (pathResolve destDir filename)])) ∧
    (fetchCached fe filename destDir cacheDir sc fs).res =
      (copyFile (pathResolve cacheDir filename) (pathResolve destDir filename)
        (downloadFile (pathResolve cacheDir filename) fe.contentsUrl sc fs).fs).1 ∧
    (fsGet (downloadFile (pathResolve cacheDir filename) fe.contentsUrl sc fs).fs
        (pathResolve cacheDir filename) = none →
      (fetchCached fe filename destDir cacheDir sc fs).res =
        .error (.copyError (pathResolve cacheDir filename))) := by
  rcases hfail with hdl | ⟨hok, ht, hch⟩
  · refine ⟨⟨[], ?_⟩, ?_, ?_⟩
    · simp [fetchCached, hmiss, afterDownload, hdl]
    · simp [fetchCached, hmiss, afterDownload, hdl]
    · intro habs
      simp [fetchCached, hmiss, afterDownload, hdl, copyFile, habs]
  · refine ⟨⟨[Op.chmodOp filename (fe.mode.getD 0)], ?_⟩, ?_, ?_⟩
    · simp [fetchCached, hmiss, afterDownload, hok, ht, hch]
    · simp [fetchCached, hmiss, afterDownload, hok, ht, hch]
    · intro habs
      simp [fetchCached, hmiss, afterDownload, hok, ht, hch, copyFile, habs]

/-- Witness for C10, exercising both failure modes: a successful download
of `b.txt` (mode 0644) whose chmod of the unresolved name rejects still
ends in the copy step's result, and an HTTP 500 on a cache miss still
leads to a copy attempt, which rejects with the copy error for the absent
cache file. -/
theorem c10_copy_after_failed_fetch_witness :
    (fetchCached ⟨some "http://u2", some 420⟩ "b.txt" "/dest" "/cache"
        ⟨none, .response 200 (.ok "DATA")⟩ []).res =
      (copyFile "/cache/b.txt" "/dest/b.txt"
        (downloadFile "/cache/b.txt" (some "http://u2")
          ⟨none, .response 200 (.ok "DATA")⟩ []).fs).1 ∧
    (fetchCached ⟨some "http://u", none⟩ "a.txt" "/dest" "/cache"
        ⟨none, .response 500 (.ok "X")⟩ []).res =
      .error (.copyError "/cache/a.txt") :=
  ⟨(c10_copy_after_failed_fetch ⟨some "http://u2", some 420⟩ "b.txt" "/dest" "/cache"
      ⟨none, .response 200 (.ok "DATA")⟩ [] (.chmodError "b.txt") rfl
      (Or.inr ⟨rfl, rfl, rfl⟩)).2.1,
   (c10_copy_after_failed_fetch ⟨some "http://u", none⟩ "a.txt" "/dest" "/cache"
      ⟨none, .response 500 (.ok "X")⟩ [] (.invalidResponseCode 500) rfl
      (Or.inl rfl)).2.2 rfl⟩

/-- The only escape path of `fetchCached` is the copy step: its promise
either resolves or rejects with the copy error for the cache path. -/
theorem fetchCached_res (fe : FileEntry) (n dd cd : String) (sc : DlScenario)
    (fs : FS) :
    (fetchCached fe n dd cd sc fs).res = .ok () ∨
    (fetchCached fe n dd cd sc fs).res = .error (.copyError (pathResolve cd n)) := by
  unfold fetchCached
  by_cases hc : checkFileExists (pathResolve cd n) fs <;> simp [hc] <;>
    exact copyFile_res _ _ _

/-- A rejection surfaced by `Promise.all` is the rejection of one of its
promises. -/
theorem firstError_mem (e : JsError) :
    ∀ l : List (Except JsError Unit), firstError l = .error e → Except.error e ∈ l := by
  intro l
  induction l with
  | nil => intro h; simp [firstError] at h
  | cons hd tl ih =>
    intro h
    cases hd with
    | ok v => exact List.mem_cons_of_mem _ (ih (by simpa [firstError] using h))
    | error f =>
      simp [firstError] at h
      rw [h]
      exact List.mem_cons_self _ _

/-- Every settled value collected by `runFetches` is the result of one
per-resource fetch. -/
theorem runFetches_results_mem (fetch1 : String → FileEntry → FS → FetchOut) :
    ∀ (l : List (String × FileEntry)) (fs : FS) (r : Except JsError Unit),
      r ∈ (runFetches fetch1 l fs).1 → ∃ n fe fs0, r = (fetch1 n fe fs0).res := by
  intro l
  induction l with
  | nil => intro fs r h; simp [runFetches] at h
  | cons hd tl ih =>
    obtain ⟨n, fe⟩ := hd
    intro fs r h
    simp [runFetches] at h
    rcases h with h | h
    · exact ⟨n, fe, fs, h⟩
    · exact ih _ _ h

/-- The per-resource fetch of `src/index.js` either resolves, or rejects
with a copy error, or rejects with the unbound-`incremental`
`ReferenceError`; download and chmod errors never escape it. -/
theorem fetchOf_res (opts : Options) (dest : String) (scen : String → DlScenario)
    (n : String) (fe : FileEntry) (fs0 : FS) :
    (fetchOf opts dest scen n fe fs0).res = .ok () ∨
    (∃ s, (fetchOf opts dest scen n fe fs0).res = .error (.copyError s)) ∨
    (fetchOf opts dest scen n fe fs0).res = .error (.referenceError "incremental") := by
  rcases opts with ⟨inc, cache⟩
  cases cache with
  | some cd =>
    rcases fetchCached_res fe n dest cd (scen n) fs0 with h | h
    · exact Or.inl h
    · exact Or.inr (Or.inl ⟨pathResolve cd n, h⟩)
  | none => exact Or.inr (Or.inr rfl)

/-- Claim C1, amended: the completion callback receives exactly one result
(by construction of the run); when it is an error, that error is never a
resource's download, chmod or HTTP-status failure — those are caught and
logged inside the fetch step — but the first error that escapes a
per-resource promise: a cache-mode copy-step failure, or the
unbound-`incremental` `ReferenceError` of the no-cache path. -/
theorem c1_completion_error_source (opts : Options)
    (files : List (String × Option FileEntry)) (dest : String)
    (scen : String → DlScenario) (fs : FS) (e : JsError)
    (h : (downloaderRun opts files dest scen fs).result = .error e) :
    (∃ s, e = JsError.copyError s) ∨ e = JsError.referenceError "incremental" := by
  have hmem : Except.error e ∈
      (runFetches (fetchOf opts dest scen) (downloadables files) fs).1 :=
    firstError_mem e _ h
  obtain ⟨n, fe, fs0, hr⟩ := runFetches_results_mem _ _ _ _ hmem
  rcases fetchOf_res opts dest scen n fe fs0 with h1 | ⟨s, h1⟩ | h1 <;>
    rw [← hr] at h1
  · exact Except.noConfusion h1
  · injection h1 with h2
    exact Or.inl ⟨s, h2⟩
  · injection h1 with h2
    exact Or.inr h2

/-- Witness for the amended C1: the concrete failing run of
`c1_counterexample` surfaces a copy error, which the theorem classifies. -/
theorem c1_completion_error_source_witness :
    (∃ s, JsError.copyError "/cache/a.txt" = JsError.copyError s) ∨
    JsError.copyError "/cache/a.txt" = JsError.referenceError "incremental" :=
  c1_completion_error_source ⟨false, some "/cache"⟩ filesA "/dest" scen500 []
    (.copyError "/cache/a.txt") (by decide)

/-- In a mapping with distinct keys, a key determines its entry. -/
theorem keys_nodup_mem_unique {α : Type} {l : List (String × α)}
    (hnd : (l.map Prod.fst).Nodup) {n : String} {a b : α}
    (ha : (n, a) ∈ l) (hb : (n, b) ∈ l) : a = b := by
  induction l with
  | nil => simp at ha
  | cons hd tl ih =>
    obtain ⟨m, c⟩ := hd
    rw [List.map_cons, List.nodup_cons] at hnd
    rcases List.mem_cons.mp ha with h1 | h1 <;> rcases List.mem_cons.mp hb with h2 | h2
    · exact congrArg Prod.snd (h1.trans h2.symm)
    · exfalso
      injection h1 with hm hc
      subst hm
      exact hnd.1 (by simpa using List.mem_map_of_mem Prod.fst h2)
    · exfalso
      injection h2 with hm hc
      subst hm
      exact hnd.1 (by simpa using List.mem_map_of_mem Prod.fst h1)
    · exact ih hnd.2 h1 h2

/-- A cached fetch never deletes an entry from the files mapping. -/
theorem fetchCached_no_delete (fe : FileEntry) (n dd cd : String)
    (sc : DlScenario) (fs : FS) :
    ∀ op ∈ (fetchCached fe n dd cd sc fs).trace, isDeleteOp op = false := by
  intro op hop
  by_cases hc : checkFileExists (pathResolve cd n) fs
  · simp [fetchCached, hc] at hop
    rcases hop with h | h <;> subst h <;> rfl
  · simp [fetchCached, hc] at hop
    rcases hop with h | h | h | h
    · subst h; rfl
    · rcases downloadFile_ops_cases (pathResolve cd n) fe.contentsUrl sc fs with ho | ho <;>
        rw [ho] at h
      · simp at h
      · simp at h; subst h; rfl
    · exact (afterDownload_ops fe n _ op h).2
    · subst h; rfl

/-- A non-cached fetch never deletes an entry from the files mapping. -/
theorem fetchNonCached_no_delete (fe : FileEntry) (n dd : String) (g : Option Bool)
    (sc : DlScenario) (fs : FS) :
    ∀ op ∈ (fetchNonCached fe n dd g sc fs).trace, isDeleteOp op = false := by
  intro op hop
  cases g with
  | none =>
    simp [fetchNonCached] at hop
    subst hop; rfl
  | some inc =>
    by_cases hc : (inc && checkFileExists (pathResolve dd n) fs) = true
    · simp [fetchNonCached, hc] at hop
      subst hop; rfl
    · simp [fetchNonCached, hc] at hop
      rcases hop with h | h | h
      · subst h; rfl
      · rcases downloadFile_ops_cases (pathResolve dd n) fe.contentsUrl sc fs with ho | ho <;>
          rw [ho] at h
        · simp at h
        · simp at h; subst h; rfl
      · exact (afterDownload_ops fe n _ op h).2

/-- The per-resource fetch of the plugin never deletes an entry from the
files mapping. -/
theorem fetchOf_no_delete (opts : Options) (dest : String)
    (scen : String → DlScenario) :
    ∀ n fe fs0 op, op ∈ (fetchOf opts dest scen n fe fs0).trace →
      isDeleteOp op = false := by
  intro n fe fs0 op hop
  rcases opts with ⟨inc, cache⟩
  cases cache with
  | some cd => exact fetchCached_no_delete fe n dest cd (scen n) fs0 op hop
  | none => exact fetchNonCached_no_delete fe n dest _ (scen n) fs0 op hop

/-- Every tagged operation of the fetch phase carries the name of a
processed resource and comes from that resource's fetch trace. -/
theorem runFetches_trace_mem (fetch1 : String → FileEntry → FS → FetchOut) :
    ∀ (l : List (String × FileEntry)) (fs : FS) (n : String) (op : Op),
      (n, op) ∈ (runFetches fetch1 l fs).2.2 →
      n ∈ l.map Prod.fst ∧ ∃ fe fs0, op ∈ (fetch1 n fe fs0).trace := by
  intro l
  induction l with
  | nil => intro fs n op h; simp [runFetches] at h
  | cons hd tl ih =>
    obtain ⟨m, fe⟩ := hd
    intro fs n op h
    simp [runFetches] at h
    rcases h with ⟨hmem, hn⟩ | h
    · subst hn
      exact ⟨by simp, fe, fs, hmem⟩
    · obtain ⟨h1, h2⟩ := ih _ n op h
      exact ⟨by simp [h1], h2⟩

/-- If the per-resource fetch never deletes, neither does the fetch phase. -/
theorem runFetches_no_delete (fetch1 : String → FileEntry → FS → FetchOut)
    (hf : ∀ n fe fs0 op, op ∈ (fetch1 n fe fs0).trace → isDeleteOp op = false)
    (l : List (String × FileEntry)) (fs : FS) :
    ∀ x ∈ (runFetches fetch1 l fs).2.2, isDeleteOp x.2 = false := by
  intro x hx
  obtain ⟨m, op⟩ := x
  obtain ⟨-, fe, fs0, hop⟩ := runFetches_trace_mem fetch1 l fs m op hx
  exact hf m fe fs0 op hop

/-- The keys of the downloadable entries are the keys of the truthy-URL
entries of the mapping. -/
theorem downloadables_keys (files : List (String × Option FileEntry)) :
    (downloadables files).map Prod.fst =
      (files.filter (fun p => truthyUrl p.2)).map Prod.fst := by
  unfold downloadables
  rw [List.map_map]
  rfl

/-- Distinct keys of the mapping give distinct downloadable keys. -/
theorem downloadables_keys_nodup (files : List (String × Option FileEntry))
    (hnd : (files.map Prod.fst).Nodup) :
    ((downloadables files).map Prod.fst).Nodup := by
  rw [downloadables_keys]
  exact List.Nodup.sublist ((List.filter_sublist files).map Prod.fst) hnd

/-- A truthy-URL entry of the mapping appears among the downloadables. -/
theorem mem_downloadables {files : List (String × Option FileEntry)}
    {n : String} {e : Option FileEntry}
    (hmem : (n, e) ∈ files) (ht : truthyUrl e = true) :
    (n, e.getD defaultEntry) ∈ downloadables files :=
  List.mem_map_of_mem _ (List.mem_filter.mpr ⟨hmem, ht⟩)

/-- The trace of a run is the deletion phase followed by the fetch phase. -/
theorem downloaderRun_trace_eq (opts : Options)
    (files : List (String × Option FileEntry)) (dest : String)
    (scen : String → DlScenario) (fs : FS) :
    (downloaderRun opts files dest scen fs).trace =
      (downloadables files).map (fun p => (p.1, Op.deleteFromFiles p.1)) ++
        (runFetches (fetchOf opts dest scen) (downloadables files) fs).2.2 := rfl

/-- A list of pairs with distinct keys holds exactly one pair with a key
present in it. -/
theorem countP_key_once {α : Type} :
    ∀ l : List (String × α), (l.map Prod.fst).Nodup → ∀ n, n ∈ l.map Prod.fst →
      l.countP (fun p => p.1 == n) = 1 := by
  intro l
  induction l with
  | nil => intro _ n h; simp at h
  | cons hd tl ih =>
    intro hnd n hmem
    rw [List.map_cons, List.nodup_cons] at hnd
    rw [List.map_cons] at hmem
    rw [List.countP_cons]
    rcases List.mem_cons.mp hmem with h | h
    · have hzero : tl.countP (fun p => p.1 == n) = 0 := by
        rw [List.countP_eq_zero]
        intro a ha hcontra
        have : a.1 = n := by simpa using hcontra
        exact hnd.1 (h ▸ this ▸ List.mem_map_of_mem Prod.fst ha)
      have hhd : (hd.1 == n) = true := by simp [h]
      simp [hzero, hhd]
    · have hne : hd.1 ≠ n := fun hcontra => hnd.1 (hcontra ▸ h)
      have hhd : (hd.1 == n) = false := by simpa using hne
      simp [hhd, ih hnd.2 n h]

/-- Claim C7: with distinct resource names, every entry without a source
URL stays in the collaborator's mapping and produces no operation at all
(no request, no write, no deletion), while every entry with a source URL
is removed from the mapping, the trace holds exactly one
deletion tagged with its name, and every deletion in the trace precedes
every fetch-phase operation — so the deletion happens exactly once, before
the resource's fetch begins, whatever the fetch outcome. -/
theorem c7_partition (opts : Options) (files : List (String × Option FileEntry))
    (dest : String) (scen : String → DlScenario) (fs : FS)
    (hnd : (files.map Prod.fst).Nodup) :
    (∀ n e, (n, e) ∈ files → truthyUrl e = false →
      ((n, e) ∈ (downloaderRun opts files dest scen fs).filesAfter ∧
       ∀ op, (n, op) ∉ (downloaderRun opts files dest scen fs).trace)) ∧
    (∀ n e, (n, e) ∈ files → truthyUrl e = true →
      ((∀ e2, (n, e2) ∉ (downloaderRun opts files dest scen fs).filesAfter) ∧
       (downloaderRun opts files dest scen fs).trace.countP
         (fun x => x.1 == n && isDeleteOp x.2) = 1 ∧
       ∃ dels fets, (downloaderRun opts files dest scen fs).trace = dels ++ fets ∧
         (∀ x ∈ dels, isDeleteOp x.2 = true) ∧
         (∀ x ∈ fets, isDeleteOp x.2 = false))) := by
  constructor
  · intro n e hmem ht
    constructor
    · exact List.mem_filter.mpr ⟨hmem, by simp [ht]⟩
    · intro op hop
      have hop' := List.mem_append.mp hop
      have hkey : n ∈ (downloadables files).map Prod.fst := by
        rcases hop' with h | h
        · obtain ⟨p, hp, he⟩ := List.mem_map.mp h
          injection he with he1 he2
          exact he1 ▸ List.mem_map_of_mem Prod.fst hp
        · exact (runFetches_trace_mem _ _ _ _ _ h).1
      rw [downloadables_keys] at hkey
      obtain ⟨⟨p1, p2⟩, hp, hpe⟩ := List.mem_map.mp hkey
      obtain ⟨hpf, hpt⟩ := List.mem_filter.mp hp
      simp only at hpe
      subst hpe
      have : p2 = e := keys_nodup_mem_unique hnd hpf hmem
      rw [this] at hpt
      rw [ht] at hpt
      exact Bool.noConfusion hpt
  · intro n e hmem ht
    refine ⟨?_, ?_, ?_⟩
    · intro e2 hmem2
      obtain ⟨hf, hflt⟩ := List.mem_filter.mp hmem2
      have : e2 = e := keys_nodup_mem_unique hnd hf hmem
      rw [this, ht] at hflt
      exact Bool.noConfusion hflt
    · show ((downloadables files).map (fun p => (p.1, Op.deleteFromFiles p.1)) ++
        (runFetches (fetchOf opts dest scen) (downloadables files) fs).2.2).countP
          (fun x => x.1 == n && isDeleteOp x.2) = 1
      rw [List.countP_append]
      have hz : ((runFetches (fetchOf opts dest scen) (downloadables files) fs).2.2).countP
          (fun x => x.1 == n && isDeleteOp x.2) = 0 := by
        rw [List.countP_eq_zero]
        intro x hx
        have := runFetches_no_delete _ (fetchOf_no_delete opts dest scen) _ _ x hx
        simp [this]
      have hmap : ((downloadables files).map
          (fun p => (p.1, Op.deleteFromFiles p.1))).countP
            (fun x => x.1 == n && isDeleteOp x.2) =
          (downloadables files).countP (fun p => p.1 == n) := by
        rw [List.countP_map]
        congr 1
        funext q
        simp [isDeleteOp, Function.comp]
      rw [hz, hmap, countP_key_once _ (downloadables_keys_nodup files hnd) n
        (List.mem_map_of_mem Prod.fst (mem_downloadables hmem ht))]
    · refine ⟨(downloadables files).map (fun p => (p.1, Op.deleteFromFiles p.1)),
        (runFetches (fetchOf opts dest scen) (downloadables files) fs).2.2,
        downloaderRun_trace_eq opts files dest scen fs, ?_, ?_⟩
      · intro x hx
        obtain ⟨p, hp, he⟩ := List.mem_map.mp hx
        rw [← he]
        rfl
      · exact runFetches_no_delete _ (fetchOf_no_delete opts dest scen) _ _

/-- Witness for C7 on a concrete two-entry mapping: the no-URL entry stays
and the downloadable entry's deletion appears exactly once. -/
theorem c7_partition_witness :
    ("keep.md", some (⟨none, none⟩ : FileEntry)) ∈
      (downloaderRun ⟨false, none⟩ filesMixed "/dest" scenOk []).filesAfter ∧
    (downloaderRun ⟨false, none⟩ filesMixed "/dest" scenOk []).trace.countP
      (fun x => x.1 == "a.txt" && isDeleteOp x.2) = 1 :=
  ⟨((c7_partition ⟨false, none⟩ filesMixed "/dest" scenOk [] (by decide)).1
      "keep.md" (some ⟨none, none⟩) (by simp [filesMixed]) rfl).1,
   ((c7_partition ⟨false, none⟩ filesMixed "/dest" scenOk [] (by decide)).2
      "a.txt" (some ⟨some "http://u", none⟩) (by simp [filesMixed]) rfl).2.1⟩

end MetalsmithDownloader
